import Mathlib

/-!
Verification of qCheck (CRC32 file checksum tool) against its specification.

The development shallowly embeds the program's core routines:
the CRC32 checksum (from the external `CRC/CRC32.hpp` library, modelled
from the spec), `ChecksumFile`, the checklist-line parser inside `Check`,
the verdict logic, the exit-status logic of `Check`, and the shared-cursor
work-dispatch loop common to `Check`'s worker lambda and `ChecksumThread`.

Bytes are `Nat` values below 256; 32-bit words are `Nat` values with
wraparound made explicit by masking; paths and text lines are `List Char`.
-/

namespace QCheck

/-- Modelled from the spec: the CRC32 routine `CRC::Checksum` comes from the
external `CRC/CRC32.hpp` library, which is not part of this repository's
sources. The spec fixes it as standard CRC-32: reflected polynomial
`0xEDB88320`, initial value 0, one's-complement convention. This is one
step of the table-generation recurrence (one bit of one table entry). -/
def crcStepBit (t : Nat) : Nat :=
  if t % 2 = 1 then (t >>> 1) ^^^ 0xEDB88320 else t >>> 1

/-- Modelled from the spec: entry `n` of the standard CRC-32 lookup table,
eight applications of the bit recurrence to the byte value. -/
def crcTableEntry (n : Nat) : Nat :=
  crcStepBit (crcStepBit (crcStepBit (crcStepBit
    (crcStepBit (crcStepBit (crcStepBit (crcStepBit n)))))))

/-- Modelled from the spec: folding one input byte into the running CRC
state (the table-driven update `crc = (crc >> 8) ^ table[(crc ^ b) & 0xFF]`). -/
def crcByte (s b : Nat) : Nat :=
  (s >>> 8) ^^^ crcTableEntry ((s ^^^ b) &&& 0xFF)

/-- The all-ones 32-bit mask used by the one's-complement convention. -/
def mask32 : Nat := 0xFFFFFFFF

namespace CRC

/-- Modelled from the spec: `CRC::Checksum(Data, InitialValue)` from the
external CRC library. Standard CRC-32: complement the seed, fold every
byte through the table-driven update, complement the result. The seed
parameter is what `ChecksumFile`'s buffered fallback passes the running
checksum into. -/
def Checksum (Data : List Nat) (InitialValue : Nat) : Nat :=
  (Data.foldl crcByte (InitialValue ^^^ mask32)) ^^^ mask32

end CRC

theorem xor_mask_cancel (x : Nat) : x ^^^ mask32 ^^^ mask32 = x := by
  rw [Nat.xor_assoc, Nat.xor_self, Nat.xor_zero]

/-- Chaining: feeding a second buffer with the first buffer's checksum as
seed equals checksumming the concatenation in one pass. -/
theorem checksum_append (A B : List Nat) (s : Nat) :
    CRC.Checksum B (CRC.Checksum A s) = CRC.Checksum (A ++ B) s := by
  unfold CRC.Checksum
  rw [xor_mask_cancel, List.foldl_append]

theorem checksum_nil (s : Nat) : CRC.Checksum [] s = s := by
  unfold CRC.Checksum
  exact xor_mask_cancel s

/-- Sanity check: the standard CRC-32 test vector for ASCII "123456789". -/
theorem checksum_test_vector :
    CRC.Checksum [0x31, 0x32, 0x33, 0x34, 0x35, 0x36, 0x37, 0x38, 0x39] 0
      = 0xCBF43926 := by decide

/-- Result of one `read(FileHandle, Buffer, 4096)` call in the buffered
fallback path: `ok bytes` is a successful read returning `bytes.length`
(zero-length means end of file), `err` is a negative return value. -/
inductive ReadRes
  | ok (bytes : List Nat)
  | err
deriving DecidableEq

/-- Environment of one `ChecksumFile` call, describing what the operating
system returns at each step of part_000 lines 21-68: `sizeResult` is
`std::filesystem::file_size` (`none` when it sets the error code), `openOk`
is whether `open(Path, O_RDONLY)` succeeds, `mmapOk` is whether `mmap`
succeeds for a positive length, `contents` is the mapped byte range, and
`reads` is the sequence of `read` results consumed by the fallback loop. -/
structure FileDesc where
  sizeResult : Option Nat
  openOk : Bool
  mmapOk : Bool
  contents : List Nat
  reads : List ReadRes
deriving DecidableEq

/-- The `mmap` call at part_000 lines 39-40: POSIX rejects a zero-length
mapping (`EINVAL`), so a zero-length file always takes the fallback path;
otherwise success is up to the environment. -/
def mmapResult (f : FileDesc) (size : Nat) : Option (List Nat) :=
  if size = 0 then none
  else if f.mmapOk then some f.contents else none

/-- The buffered fallback loop at part_000 lines 57-63: while `read`
returns a positive count, fold the chunk into the running CRC with the
previous value as seed; a zero-length read or an error ends the loop. -/
def fallbackLoop (crc : Nat) : List ReadRes → Nat
  | [] => crc
  | .err :: _ => crc
  | .ok [] :: _ => crc
  | .ok (b :: bs) :: rest => fallbackLoop (CRC.Checksum (b :: bs) crc) rest

/-- Embedding of `ChecksumFile` (part_000 lines 21-69): fail on a size
error or an open failure; checksum via the memory map when it succeeds,
via the buffered fallback otherwise; the CRC accumulator starts at 0. -/
def ChecksumFile (f : FileDesc) : Option Nat :=
  match f.sizeResult with
  | none => none
  | some size =>
    if f.openOk then
      match mmapResult f size with
      | some data => some (CRC.Checksum data 0)
      | none => some (fallbackLoop 0 f.reads)
    else none

/-- Running the fallback loop over nonempty chunks that end in a stopper
(end of file, a read error, or exhaustion) chains the per-chunk checksums,
which equals the single-pass checksum of the concatenation. -/
theorem fallbackLoop_chunks (chunks : List (List Nat)) (crc : Nat)
    (hne : ∀ c ∈ chunks, c ≠ []) (tail : List ReadRes)
    (htail : tail = [] ∨ tail = [.ok []] ∨ tail = [.err]) :
    fallbackLoop crc (chunks.map ReadRes.ok ++ tail)
      = CRC.Checksum chunks.flatten crc := by
  induction chunks generalizing crc with
  | nil =>
    simp only [List.map_nil, List.nil_append, List.flatten_nil, checksum_nil]
    rcases htail with h | h | h <;> subst h <;> rfl
  | cons c cs ih =>
    have hc : c ≠ [] := hne c (List.mem_cons_self c cs)
    obtain ⟨b, bs, rfl⟩ : ∃ b bs, c = b :: bs := by
      cases c with
      | nil => exact absurd rfl hc
      | cons b bs => exact ⟨b, bs, rfl⟩
    have hcs : ∀ x ∈ cs, x ≠ [] := fun x hx => hne x (List.mem_cons_of_mem _ hx)
    simp only [List.map_cons, List.cons_append, fallbackLoop, List.flatten_cons,
      List.append_eq]
    rw [ih _ hcs, checksum_append]
    simp only [List.cons_append]

/-- Value of a hexadecimal digit character as accepted by
`std::from_chars` with base 16, or `none` for a non-digit. -/
def hexDigitValue (c : Char) : Option Nat :=
  if '0' ≤ c ∧ c ≤ '9' then some (c.toNat - 48)
  else if 'a' ≤ c ∧ c ≤ 'f' then some (c.toNat - 87)
  else if 'A' ≤ c ∧ c ≤ 'F' then some (c.toNat - 55)
  else none

/-- Whether a character is a base-16 digit for `std::from_chars`. -/
def isHexDigitB (c : Char) : Bool := (hexDigitValue c).isSome

/-- Numeric value of the maximal leading run of hex digits of `s`. -/
def hexPrefixValue (s : List Char) : Nat :=
  (s.takeWhile isHexDigitB).foldl (fun a c => 16 * a + (hexDigitValue c).getD 0) 0

/-- Embedding of the `std::from_chars<std::uint32_t>(first, last, v, 16)`
call at part_000 lines 105-107, as observed through the code's single
`ec != errc()` test: it consumes the maximal leading run of hex digits;
no digit at all gives `invalid_argument` and a parsed value above the
`uint32` range gives `result_out_of_range` (both `none` here); trailing
characters after the digit run are not an error. -/
def fromCharsHexU32 (s : List Char) : Option Nat :=
  if (s.takeWhile isHexDigitB).isEmpty then none
  else if hexPrefixValue s < 4294967296 then some (hexPrefixValue s) else none

/-- Embedding of `std::string::find_last_of(' ')` (part_000 line 99):
index of the last occurrence, or `none` for `npos`. -/
def findLastOf (ch : Char) : List Char → Option Nat
  | [] => none
  | c :: rest =>
    match findLastOf ch rest with
    | some i => some (i + 1)
    | none => if c = ch then some 0 else none

/-- The `PathString` view (part_000 lines 100-101): `substr(0, BreakPos)`,
the whole line when `BreakPos` is `npos`. -/
def pathStringOf (line : List Char) : List Char :=
  match findLastOf ' ' line with
  | some k => line.take k
  | none => line

/-- The `CheckString` view (part_000 lines 102-103): `substr(BreakPos + 1)`.
When `BreakPos` is `npos`, `npos + 1` wraps to 0, so the view is the whole
line again. -/
def checkStringOf (line : List Char) : List Char :=
  match findLastOf ' ' line with
  | some k => line.drop (k + 1)
  | none => line

/-- Whether a POSIX `std::filesystem::path` (modelled as its character
sequence) is absolute. -/
def isAbsolute (p : List Char) : Bool := p.head? = some '/'

/-- Embedding of `std::filesystem::path::operator/=` on POSIX paths: an
absolute right operand replaces the left; otherwise the parts are joined,
inserting a separator when the left part is nonempty and does not already
end in one. -/
def pathAppend (a b : List Char) : List Char :=
  if isAbsolute b then b
  else if a = [] then b
  else if a.getLast? = some '/' then a ++ b
  else a ++ '/' :: b

/-- Embedding of `std::filesystem::path::parent_path` on POSIX paths
without trailing separators: everything before the last separator, the
root `"/"` when the last separator is the leading one, empty when there
is no separator. -/
def parentPath (p : List Char) : List Char :=
  match findLastOf '/' p with
  | none => []
  | some 0 => ['/']
  | some k => p.take k

/-- Embedding of `std::filesystem::path::has_parent_path`. -/
def hasParentPath (p : List Char) : Bool := parentPath p ≠ []

/-- The path-resolution step of `Check` (part_000 lines 113-122):
start from the checklist's parent directory when it has one, else from
`"."`, then append the relative path from the line. -/
def resolvePath (sfvPath rel : List Char) : List Char :=
  pathAppend (if hasParentPath sfvPath then parentPath sfvPath else ['.']) rel

/-- One queued verification job (the `CheckEntry` struct at part_000
lines 73-77). -/
structure CheckEntry where
  FilePath : List Char
  Checksum : Nat
deriving DecidableEq

/-- Embedding of the per-line body of `Check`'s parsing loop (part_000
lines 96-124): skip a line whose first character is `;` (an empty line's
`CurLine[0]` reads the terminating null, so it is not a comment), split at
the last space, parse the checksum field, and on success queue an entry
with the resolved path; `none` means no entry is appended. -/
def parseLine (sfvPath line : List Char) : Option CheckEntry :=
  if line.head? = some ';' then none
  else
    match fromCharsHexU32 (checkStringOf line) with
    | none => none
    | some v => some ⟨resolvePath sfvPath (pathStringOf line), v⟩

/-- Parsing one whole checklist file: lines that produce no entry are
skipped and parsing continues with the rest. -/
def parseChecklist (sfvPath : List Char) (lines : List (List Char)) :
    List CheckEntry :=
  lines.filterMap (parseLine sfvPath)

/-- The three result states a worker reports for one entry in check mode. -/
inductive Verdict
  | OK
  | FAIL
  | ERROR
deriving DecidableEq

/-- Embedding of the reporting branch in `Check`'s worker (part_000 lines
146-164): with a computed checksum, `Valid = (expected == computed)`
selects OK or FAIL; without one, the "Error opening file" line is printed. -/
def checkVerdict (expected : Nat) (computed : Option Nat) : Verdict :=
  match computed with
  | some c => if expected = c then .OK else .FAIL
  | none => .ERROR

/-- Queue-building loop of `Check` (part_000 lines 84-125) over a list of
(checklist path, open result) pairs, where `none` models an `ifstream`
that failed to open: the first unopenable checklist aborts with `none`,
otherwise the parsed entries are concatenated in input order. -/
def collectQueue : List (List Char × Option (List (List Char))) →
    Option (List CheckEntry)
  | [] => some []
  | (_, none) :: _ => none
  | (p, some lines) :: rest =>
    (collectQueue rest).map (fun q => parseChecklist p lines ++ q)

/-- Embedding of `Check` (part_000 lines 71-174): `fsRead` models
`ChecksumFile`'s result per resolved path. An unopenable checklist returns
`EXIT_FAILURE` (1) before any job is dispatched (the worker threads are
created only after the whole parsing loop); otherwise every queued entry
is dispatched and the function returns `EXIT_SUCCESS` (0). The second
component is the list of per-entry verdicts produced by the dispatched
jobs (empty when nothing was dispatched). -/
def Check (fsRead : List Char → Option Nat)
    (inputs : List (List Char × Option (List (List Char)))) :
    Nat × List Verdict :=
  match collectQueue inputs with
  | none => (1, [])
  | some q => (0, q.map (fun e => checkVerdict e.Checksum (fsRead e.FilePath)))

/-- State of the shared-cursor dispatch loop that both `Check`'s worker
lambda (part_000 lines 139-143) and `ChecksumThread` (lines 185-189) run:
`counter` is the shared atomic cursor (`QueueLock` / `FileIndex`),
`active.getD w false` tells whether worker `w` is still in its loop, and
`executed` records, in claim order, each (worker, job index) pair that was
actually executed. -/
structure DispatchState where
  counter : Nat
  active : List Bool
  executed : List (Nat × Nat)
deriving DecidableEq

/-- One loop iteration of worker `w` against a job list of length `N`:
an active worker atomically claims `counter` via fetch-and-increment;
a claim at or beyond `N` makes the worker return, a claim below `N`
executes that job index. A worker that has already returned does nothing. -/
def dispatchStep (N : Nat) (s : DispatchState) (w : Nat) : DispatchState :=
  if s.active.getD w false then
    if s.counter ≥ N then
      ⟨s.counter + 1, s.active.set w false, s.executed⟩
    else
      ⟨s.counter + 1, s.active, s.executed ++ [(w, s.counter)]⟩
  else s

/-- Running the dispatch loop under an arbitrary interleaving: the
schedule lists which worker performs each successive claim attempt. -/
def dispatchRun (N : Nat) (s : DispatchState) (sched : List Nat) :
    DispatchState :=
  sched.foldl (dispatchStep N) s

/-- Initial dispatch state for `T` workers: the shared cursor starts at
zero (`QueueLock{0}` at part_000 line 78; the counter `ChecksumThread`
receives), all workers active, nothing executed. -/
def dispatchInit (T : Nat) : DispatchState :=
  ⟨0, List.replicate T true, []⟩

/-- Whether every worker has returned from its loop (the state after
`Workers[i].join()` completes for all `i`). -/
def allExited (s : DispatchState) : Bool := s.active.all (· = false)

/-- Invariant of the dispatch loop: the executed job indices are exactly
`0, 1, …, min counter N - 1` in claim order, the worker array keeps its
size, and once any worker has returned the cursor has passed `N`. -/
def dispatchInv (N T : Nat) (s : DispatchState) : Prop :=
  s.executed.map Prod.snd = List.range (min s.counter N) ∧
  s.active.length = T ∧
  ((∃ b ∈ s.active, b = false) → N ≤ s.counter)

theorem dispatchInit_inv (N T : Nat) : dispatchInv N T (dispatchInit T) := by
  refine ⟨by simp [dispatchInit], by simp [dispatchInit], ?_⟩
  rintro ⟨b, hb, rfl⟩
  have := List.eq_of_mem_replicate hb
  simp at this

theorem dispatchStep_inv {N T : Nat} {s : DispatchState} (w : Nat)
    (h : dispatchInv N T s) : dispatchInv N T (dispatchStep N s w) := by
  obtain ⟨h1, h2, h3⟩ := h
  unfold dispatchStep
  cases hw : s.active.getD w false with
  | false =>
    rw [if_neg (by simp)]
    exact ⟨h1, h2, h3⟩
  | true =>
    rw [if_pos rfl]
    by_cases hc : s.counter ≥ N
    · rw [if_pos hc]
      refine ⟨?_, ?_, ?_⟩
      · show s.executed.map Prod.snd = List.range (min (s.counter + 1) N)
        rw [h1]; congr 1; omega
      · show (s.active.set w false).length = T
        simpa using h2
      · intro _
        show N ≤ s.counter + 1
        omega
    · rw [if_neg hc]
      push_neg at hc
      refine ⟨?_, h2, ?_⟩
      · show (s.executed ++ [(w, s.counter)]).map Prod.snd
          = List.range (min (s.counter + 1) N)
        have hmin : min s.counter N = s.counter := by omega
        have hmin' : min (s.counter + 1) N = s.counter + 1 := by omega
        rw [List.map_append, h1, hmin, hmin']
        simpa using (List.range_succ s.counter).symm
      · intro hex
        show N ≤ s.counter + 1
        have := h3 hex
        omega

theorem dispatchRun_inv (N T : Nat) (sched : List Nat) (s : DispatchState)
    (h : dispatchInv N T s) : dispatchInv N T (dispatchRun N s sched) := by
  induction sched generalizing s with
  | nil => exact h
  | cons w ws ih => exact ih _ (dispatchStep_inv w h)

/-- C1: for every job list of length `N` and worker count `T ≥ 1`, under
any interleaving after which all workers have exited, the work-dispatch
loop shared by `Check`'s worker lambda and `ChecksumThread` executes the
job indices `0, …, N-1` exactly — no index skipped or duplicated — and
each index is executed by exactly one worker exactly once. -/
theorem dispatch_exactly_once (N T : Nat) (sched : List Nat)
    (hT : 1 ≤ T)
    (hdone : allExited (dispatchRun N (dispatchInit T) sched) = true) :
    (dispatchRun N (dispatchInit T) sched).executed.map Prod.snd
      = List.range N ∧
    ∀ i < N,
      ((dispatchRun N (dispatchInit T) sched).executed.filter
        (fun p => p.2 == i)).length = 1 := by
  obtain ⟨h1, h2, h3⟩ := dispatchRun_inv N T sched _ (dispatchInit_inv N T)
  set s := dispatchRun N (dispatchInit T) sched with hs
  have hne : s.active ≠ [] := by
    intro h
    rw [h] at h2
    simp at h2
    omega
  obtain ⟨b, hb⟩ := List.exists_mem_of_ne_nil _ hne
  have hbf : b = false := by
    unfold allExited at hdone
    rw [List.all_eq_true] at hdone
    exact of_decide_eq_true (hdone b hb)
  have hN : N ≤ s.counter := h3 ⟨b, hb, hbf⟩
  have hmin : min s.counter N = N := by omega
  rw [hmin] at h1
  refine ⟨h1, fun i hi => ?_⟩
  have e1 : (s.executed.filter (fun p => p.2 == i)).length
      = s.executed.countP (fun p => p.2 == i) :=
    (List.countP_eq_length_filter _ _).symm
  have e2 : s.executed.countP (fun p => p.2 == i)
      = (s.executed.map Prod.snd).countP (fun x => x == i) := by
    rw [List.countP_map]
    rfl
  rw [e1, e2, h1]
  exact List.count_eq_one_of_mem (List.nodup_range N) (List.mem_range.mpr hi)

/-- Witness for the dispatch theorem at N = 3 jobs, T = 2 workers and a
concrete interleaving in which worker 1 exits first. -/
theorem dispatch_exactly_once_witness :
    (1 ≤ 2 ∧
      allExited (dispatchRun 3 (dispatchInit 2) [0, 1, 0, 1, 1, 0]) = true) ∧
    ((dispatchRun 3 (dispatchInit 2) [0, 1, 0, 1, 1, 0]).executed.map Prod.snd
        = List.range 3 ∧
      ∀ i < 3,
        ((dispatchRun 3 (dispatchInit 2) [0, 1, 0, 1, 1, 0]).executed.filter
          (fun p => p.2 == i)).length = 1) :=
  ⟨⟨by decide, by decide⟩,
    dispatch_exactly_once 3 2 [0, 1, 0, 1, 1, 0] (by decide) (by decide)⟩

theorem checksum_foldl (chunks : List (List Nat)) (s : Nat) :
    List.foldl (fun crc chunk => CRC.Checksum chunk crc) s chunks
      = CRC.Checksum chunks.flatten s := by
  induction chunks generalizing s with
  | nil => simp [checksum_nil]
  | cons c cs ih =>
    simp only [List.foldl_cons, List.flatten_cons]
    rw [ih, checksum_append]

/-- C2: the chained CRC32 computation of `ChecksumFile`'s buffered
fallback path — each chunk fed to `CRC::Checksum` with the running
checksum of the previous chunks as seed, starting from 0 — equals the
single-pass CRC32 of the concatenated byte sequence, both as the literal
read loop over any chunk partition and as the underlying fold. -/
theorem crc_chaining (chunks : List (List Nat))
    (hne : ∀ c ∈ chunks, c ≠ []) :
    fallbackLoop 0 (chunks.map ReadRes.ok ++ [ReadRes.ok []])
        = CRC.Checksum chunks.flatten 0 ∧
    List.foldl (fun crc chunk => CRC.Checksum chunk crc) 0 chunks
        = CRC.Checksum chunks.flatten 0 :=
  ⟨fallbackLoop_chunks chunks 0 hne _ (Or.inr (Or.inl rfl)),
    checksum_foldl chunks 0⟩

/-- Witness for the chaining theorem: the test-vector bytes split as
"12345" ++ "6789" chain to the single-pass value 0xCBF43926. -/
theorem crc_chaining_witness :
    (∀ c ∈ [[0x31, 0x32, 0x33, 0x34, 0x35], [0x36, 0x37, 0x38, 0x39]],
        c ≠ ([] : List Nat)) ∧
    fallbackLoop 0
        ([[0x31, 0x32, 0x33, 0x34, 0x35], [0x36, 0x37, 0x38, 0x39]].map
            ReadRes.ok ++ [ReadRes.ok []])
      = CRC.Checksum
          [[0x31, 0x32, 0x33, 0x34, 0x35], [0x36, 0x37, 0x38, 0x39]].flatten 0 :=
  ⟨by decide,
    (crc_chaining [[0x31, 0x32, 0x33, 0x34, 0x35], [0x36, 0x37, 0x38, 0x39]]
      (by decide)).1⟩

/-- C8: when the file size cannot be determined or the read-only open
fails, `ChecksumFile` returns the empty optional immediately; being a
total function into `Option`, no exception escapes. -/
theorem checksumFile_unreadable (f : FileDesc)
    (h : f.sizeResult = none ∨ f.openOk = false) :
    ChecksumFile f = none := by
  rcases h with h | h
  · simp [ChecksumFile, h]
  · cases hs : f.sizeResult <;> simp [ChecksumFile, hs, h]

/-- Witness for the unreadable-file theorem: a file whose size query
fails. -/
theorem checksumFile_unreadable_witness :
    ((⟨none, true, true, [], []⟩ : FileDesc).sizeResult = none ∨
      (⟨none, true, true, [], []⟩ : FileDesc).openOk = false) ∧
    ChecksumFile ⟨none, true, true, [], []⟩ = none :=
  ⟨Or.inl rfl, checksumFile_unreadable _ (Or.inl rfl)⟩

/-- C9: a readable zero-length file checksums to `0x00000000`: the
zero-length `mmap` fails, the fallback loop's first read hits end of
file, and the accumulator keeps its initial value 0, which is also the
CRC32 of the empty input. -/
theorem checksumFile_empty (f : FileDesc)
    (hsize : f.sizeResult = some 0) (hopen : f.openOk = true)
    (hreads : f.reads = [ReadRes.ok []]) :
    ChecksumFile f = some 0 ∧ CRC.Checksum [] 0 = 0 :=
  ⟨by simp [ChecksumFile, hsize, hopen, mmapResult, hreads, fallbackLoop],
    checksum_nil 0⟩

/-- Witness for the zero-length-file theorem. -/
theorem checksumFile_empty_witness :
    ((⟨some 0, true, true, [], [ReadRes.ok []]⟩ : FileDesc).sizeResult
        = some 0 ∧
      (⟨some 0, true, true, [], [ReadRes.ok []]⟩ : FileDesc).openOk = true ∧
      (⟨some 0, true, true, [], [ReadRes.ok []]⟩ : FileDesc).reads
        = [ReadRes.ok []]) ∧
    ChecksumFile ⟨some 0, true, true, [], [ReadRes.ok []]⟩ = some 0 :=
  ⟨⟨rfl, rfl, rfl⟩, (checksumFile_empty _ rfl rfl rfl).1⟩

/-- C10: when a chunk read fails mid-stream after some successful reads,
the fallback loop stops and `ChecksumFile` returns the CRC32 of the bytes
consumed so far as a success value — indistinguishable from a successful
read of a file whose contents are that prefix. -/
theorem checksumFile_partial_read (size : Nat) (contents : List Nat)
    (chunks : List (List Nat)) (hne : ∀ c ∈ chunks, c ≠ []) :
    ChecksumFile
        ⟨some size, true, false, contents, chunks.map ReadRes.ok ++ [ReadRes.err]⟩
      = some (CRC.Checksum chunks.flatten 0) ∧
    ChecksumFile
        ⟨some size, true, false, contents, chunks.map ReadRes.ok ++ [ReadRes.err]⟩
      = ChecksumFile
        ⟨some size, true, false, contents, chunks.map ReadRes.ok ++ [ReadRes.ok []]⟩ := by
  have h1 := fallbackLoop_chunks chunks 0 hne [ReadRes.err] (Or.inr (Or.inr rfl))
  have h2 := fallbackLoop_chunks chunks 0 hne [ReadRes.ok []] (Or.inr (Or.inl rfl))
  refine ⟨?_, ?_⟩
  · simp [ChecksumFile, mmapResult, h1]
  · simp [ChecksumFile, mmapResult, h1, h2]

/-- Witness for the partial-read theorem: one successful chunk, then a
failing read. -/
theorem checksumFile_partial_read_witness :
    (∀ c ∈ [[0x31, 0x32, 0x33]], c ≠ ([] : List Nat)) ∧
    ChecksumFile
        ⟨some 9, true, false, [], [[0x31, 0x32, 0x33]].map ReadRes.ok ++ [ReadRes.err]⟩
      = some (CRC.Checksum [[0x31, 0x32, 0x33]].flatten 0) :=
  ⟨by decide, (checksumFile_partial_read 9 [] [[0x31, 0x32, 0x33]] (by decide)).1⟩

/-- C3 counterexample: the line "f 1Az" carries trailing garbage after
the valid hex prefix "1A", yet `Check` queues an entry with checksum
0x1A instead of discarding the line, because only `from_chars`'s error
code is tested, not whether the whole substring was consumed. -/
theorem parse_trailing_garbage_counterexample :
    parseLine ['l'] ['f', ' ', '1', 'A', 'z']
        = some ⟨['.', '/', 'f'], 0x1A⟩ ∧
    parseLine ['l'] ['f', ' ', '1', 'A', 'z'] ≠ none := by
  constructor <;> decide

/-- C3 (amended): a non-comment line is discarded silently — no entry,
no error — precisely when the check substring's maximal leading run of
hex digits is empty (empty substring or leading non-hex character) or
its value exceeds the `uint32` range; trailing garbage after a valid
in-range hex prefix does not cause a discard. -/
theorem parseLine_discard_iff (sfvPath line : List Char)
    (hcomment : line.head? ≠ some ';') :
    parseLine sfvPath line = none ↔
      ((checkStringOf line).takeWhile isHexDigitB = [] ∨
        4294967296 ≤ hexPrefixValue (checkStringOf line)) := by
  unfold parseLine fromCharsHexU32
  rw [if_neg hcomment]
  by_cases h1 : (checkStringOf line).takeWhile isHexDigitB = []
  · simp [h1]
  · rw [if_neg (by simpa [List.isEmpty_iff] using h1)]
    by_cases h2 : hexPrefixValue (checkStringOf line) < 4294967296
    · rw [if_pos h2]
      simp only [h1, false_or]
      constructor
      · intro h
        exact absurd h (by simp)
      · intro h
        omega
    · rw [if_neg h2]
      simp only [h1, false_or]
      constructor
      · intro _
        omega
      · intro _
        trivial

/-- Witness for the discard characterization: a line whose check
substring is empty (the line ends in the splitting space). -/
theorem parseLine_discard_iff_witness :
    ((['f', ' '] : List Char).head? ≠ some ';') ∧
    (parseLine ['l'] ['f', ' '] = none ↔
      ((checkStringOf ['f', ' ']).takeWhile isHexDigitB = [] ∨
        4294967296 ≤ hexPrefixValue (checkStringOf ['f', ' ']))) :=
  ⟨by decide, parseLine_discard_iff ['l'] ['f', ' '] (by decide)⟩

/-- C4 counterexample: the spaceless line "ABC" is not discarded — the
whole line doubles as the checksum field, parses as hex 0xABC, and an
entry is created. -/
theorem parse_spaceless_counterexample :
    parseLine ['l'] ['A', 'B', 'C']
        = some ⟨['.', '/', 'A', 'B', 'C'], 0xABC⟩ ∧
    parseLine ['l'] ['A', 'B', 'C'] ≠ none := by
  constructor <;> decide

theorem findLastOf_eq_none {ch : Char} {l : List Char} (h : ch ∉ l) :
    findLastOf ch l = none := by
  induction l with
  | nil => rfl
  | cons c rest ih =>
    have hc : c ≠ ch := fun e => h (e ▸ List.mem_cons_self c rest)
    have hr : ch ∉ rest := fun e => h (List.mem_cons_of_mem _ e)
    unfold findLastOf
    rw [ih hr, if_neg hc]

/-- C4 (amended): a spaceless non-comment line is not unconditionally
discarded: `find_last_of` returns `npos` and `substr(npos + 1)` wraps to
index 0, so the whole line serves as both the path field and the checksum
field; the line is discarded exactly when hex-parsing the whole line
fails, and otherwise yields an entry whose relative path is the whole
line; a discarded line leaves parsing of the remaining lines untouched. -/
theorem parseLine_spaceless (sfvPath line : List Char)
    (hspace : ' ' ∉ line) (hcomment : line.head? ≠ some ';') :
    parseLine sfvPath line
        = (fromCharsHexU32 line).map
            (fun v => ⟨resolvePath sfvPath line, v⟩) ∧
    ∀ rest, parseLine sfvPath line = none →
      parseChecklist sfvPath (line :: rest) = parseChecklist sfvPath rest := by
  have hfind : findLastOf ' ' line = none := findLastOf_eq_none hspace
  constructor
  · unfold parseLine checkStringOf pathStringOf
    rw [if_neg hcomment, hfind]
    cases fromCharsHexU32 line <;> rfl
  · intro rest h
    unfold parseChecklist
    rw [List.filterMap_cons, h]

/-- Witness for the spaceless-line theorem at the line "ABC". -/
theorem parseLine_spaceless_witness :
    (' ' ∉ (['A', 'B', 'C'] : List Char) ∧
      (['A', 'B', 'C'] : List Char).head? ≠ some ';') ∧
    parseLine ['l'] ['A', 'B', 'C']
      = (fromCharsHexU32 ['A', 'B', 'C']).map
          (fun v => ⟨resolvePath ['l'] ['A', 'B', 'C'], v⟩) :=
  ⟨⟨by decide, by decide⟩,
    (parseLine_spaceless ['l'] ['A', 'B', 'C'] (by decide) (by decide)).1⟩

/-- C5 counterexample: against the bare checklist path "list.sfv", the
line "photo.jpg 1A2B3C4D" resolves to "./photo.jpg" — `Check` starts
from "." and appends — not to the bare relative path "photo.jpg" the
claim states. -/
theorem resolve_bare_path_counterexample :
    parseLine ['l', 'i', 's', 't', '.', 's', 'f', 'v']
        ['p', 'h', 'o', 't', 'o', '.', 'j', 'p', 'g', ' ',
          '1', 'A', '2', 'B', '3', 'C', '4', 'D']
      = some ⟨['.', '/', 'p', 'h', 'o', 't', 'o', '.', 'j', 'p', 'g'],
          0x1A2B3C4D⟩ ∧
    (['.', '/', 'p', 'h', 'o', 't', 'o', '.', 'j', 'p', 'g'] : List Char)
      ≠ ['p', 'h', 'o', 't', 'o', '.', 'j', 'p', 'g'] := by
  constructor <;> decide

/-- C5 (amended): the resolved path is `checklistPath.parent / relativePath`
when the checklist path has a parent directory, and `"." / relativePath`
— the relative path prefixed with "./" — when it has none; the example
line "photo.jpg 1A2B3C4D" in checklist "/data/list.sfv" yields the entry
{path: "/data/photo.jpg", expected: 0x1A2B3C4D}. -/
theorem resolvePath_spec (sfvPath rel : List Char) :
    (hasParentPath sfvPath = true →
      resolvePath sfvPath rel = pathAppend (parentPath sfvPath) rel) ∧
    (hasParentPath sfvPath = false → isAbsolute rel = false →
      resolvePath sfvPath rel = '.' :: '/' :: rel) ∧
    parseLine ['/', 'd', 'a', 't', 'a', '/', 'l', 'i', 's', 't', '.', 's', 'f', 'v']
        ['p', 'h', 'o', 't', 'o', '.', 'j', 'p', 'g', ' ',
          '1', 'A', '2', 'B', '3', 'C', '4', 'D']
      = some ⟨['/', 'd', 'a', 't', 'a', '/', 'p', 'h', 'o', 't', 'o', '.', 'j', 'p', 'g'],
          0x1A2B3C4D⟩ := by
  refine ⟨?_, ?_, by decide⟩
  · intro h
    unfold resolvePath
    rw [if_pos h]
  · intro h habs
    simp [resolvePath, pathAppend, h, habs]

/-- Witness for the path-resolution theorem: a bare checklist path and a
relative file name. -/
theorem resolvePath_spec_witness :
    (hasParentPath ['l'] = false ∧ isAbsolute ['p'] = false) ∧
    resolvePath ['l'] ['p'] = '.' :: '/' :: ['p'] :=
  ⟨⟨by decide, by decide⟩, (resolvePath_spec ['l'] ['p']).2.1 rfl rfl⟩

/-- C6: in check mode a processed entry reports OK iff the computed
checksum is present and equals the expected value, FAIL iff it is
present and differs, and ERROR iff `ChecksumFile` returned no result;
a mismatch always yields FAIL, never ERROR. -/
theorem verdict_characterization (expected : Nat) (computed : Option Nat) :
    (checkVerdict expected computed = .OK ↔ computed = some expected) ∧
    (checkVerdict expected computed = .FAIL ↔
      ∃ c, computed = some c ∧ c ≠ expected) ∧
    (checkVerdict expected computed = .ERROR ↔ computed = none) := by
  cases computed with
  | none => simp [checkVerdict]
  | some c =>
    by_cases h : expected = c
    · subst h
      simp [checkVerdict]
    · simp [checkVerdict, h, Ne.symm h]

theorem collectQueue_eq_none
    (inputs : List (List Char × Option (List (List Char)))) :
    collectQueue inputs = none ↔ ∃ pr ∈ inputs, pr.2 = none := by
  induction inputs with
  | nil => simp [collectQueue]
  | cons pr rest ih =>
    obtain ⟨p, op⟩ := pr
    cases op with
    | none => simp [collectQueue]
    | some lines => simp [collectQueue, Option.map_eq_none', ih]

/-- C7: `Check` returns a non-zero exit status iff some supplied
checklist file could not be opened, and in that case it aborts with no
job dispatched; when every checklist opens, the run completes with exit
status 0 no matter which verdicts the entries produce. -/
theorem check_exit_status (fsRead : List Char → Option Nat)
    (inputs : List (List Char × Option (List (List Char)))) :
    ((Check fsRead inputs).1 ≠ 0 ↔ ∃ pr ∈ inputs, pr.2 = none) ∧
    ((∃ pr ∈ inputs, pr.2 = none) → Check fsRead inputs = (1, [])) := by
  rw [← collectQueue_eq_none inputs]
  cases hq : collectQueue inputs with
  | none => simp [Check, hq]
  | some q => simp [Check, hq]

/-- Witness for the exit-status theorem: a single unopenable checklist. -/
theorem check_exit_status_witness :
    (∃ pr ∈ [((['a'] : List Char), (none : Option (List (List Char))))],
        pr.2 = none) ∧
    Check (fun _ => none) [(['a'], none)] = (1, []) :=
  ⟨by decide,
    (check_exit_status (fun _ => none) [(['a'], none)]).2 (by decide)⟩

end QCheck
